import Mathlib

/-!
# Verification of the TV-reminder bot core

A shallow embedding of the bot's persistent data model and the operations
the specification talks about, translated from the Go sources:

* the SQLite layer (`addShow`, `upsertEpisode`, `findEpisodeByNumber`,
  `createReminder`, `getDueReminders`, `updateLastWatchedEpisode`,
  `getSeasons`, `findNextEpisode`, `toggleShowNotifications`,
  `getShowNameByID`, `markReminderSent`);
* the progress-update core of `handleEpisodeCallback`;
* the season/episode keyboard decision of `handleShowNameCallback`.

Timestamps are modelled as `Nat` seconds; the Go zero `time.Time`
(an unknown air time, `IsZero()`) is modelled as `0`.  Tables are lists of
rows; `AUTOINCREMENT` ids are carried explicitly in the state.
-/

namespace TVReminder

/-- A row of `episodes_cache` (Go `DBEpisode`).  `airedAtUTC = 0` encodes the
Go zero time, i.e. no normalized air timestamp is known. -/
structure DBEpisode where
  id : Nat
  provider : String
  providerShowID : String
  providerEpisodeID : String
  season : Int
  number : Int
  title : String
  airdate : String
  airtime : String
  airedAtUTC : Nat
  fetchedAt : Nat
  deriving DecidableEq, Repr

/-- A row of `shows` (Go `DBShow`).  `notificationsEnabled` models the
`notifications_enabled` integer column, which only ever holds 0 or 1. -/
structure DBShow where
  id : Nat
  userID : Int
  name : String
  provider : String
  providerShowID : String
  timezone : String
  lastWatchedEpisodeID : Option Nat
  notificationsEnabled : Bool
  createdAt : Nat
  deriving DecidableEq, Repr

/-- A row of `reminders` (Go `DBReminder`, base columns only: the Go struct's
extra fields come from the `LEFT JOIN` in `getDueReminders`). -/
structure DBReminder where
  id : Nat
  userID : Int
  showID : Nat
  episodeID : Nat
  remindAt : Nat
  chatID : Int
  deriving DecidableEq, Repr

/-- The persistent database state: the three tables plus the
`AUTOINCREMENT` counters for `shows.id` and `reminders.id`. -/
structure DBState where
  shows : List DBShow
  episodes : List DBEpisode
  reminders : List DBReminder
  nextShowID : Nat
  nextReminderID : Nat
  deriving DecidableEq, Repr

/-- `SELECT ... FROM shows WHERE id = ?` (primary-key lookup). -/
def findShowByID (shows : List DBShow) (sid : Nat) : Option DBShow :=
  shows.find? (fun s => s.id == sid)

/-- `SELECT season, number FROM episodes_cache WHERE id = ?`
(primary-key lookup, used inside `markReminderSent`). -/
def findEpisodeByID (eps : List DBEpisode) (eid : Nat) : Option DBEpisode :=
  eps.find? (fun e => e.id == eid)

/-- Go `findEpisodeByNumber`: `SELECT ... FROM episodes_cache WHERE
provider_show_id = ? and season = ? and number = ?` (first matching row). -/
def findEpisodeByNumber (eps : List DBEpisode) (psid : String)
    (season number : Int) : Option DBEpisode :=
  eps.find? (fun e =>
    e.providerShowID == psid && e.season == season && e.number == number)

/-- Strict (season, number) lexicographic comparison used by
`ORDER BY season, number`. -/
def epKeyLt (a b : DBEpisode) : Bool :=
  a.season < b.season || (a.season == b.season && a.number < b.number)

/-- The `WHERE` clause of the next-episode queries:
`provider_show_id = ? AND ((season = ? AND number > ?) OR (season > ?))`. -/
def nextEpQualifies (psid : String) (s n : Int) (e : DBEpisode) : Bool :=
  e.providerShowID == psid && ((e.season == s && n < e.number) || s < e.season)

/-- One fold step realizing `ORDER BY season, number LIMIT 1`:
keep the accumulated row unless the new row is strictly smaller. -/
def minStep (acc : Option DBEpisode) (e : DBEpisode) : Option DBEpisode :=
  match acc with
  | none => some e
  | some a => if epKeyLt e a then some e else some a

/-- `ORDER BY season, number LIMIT 1` over a candidate list. -/
def minByEpKey (l : List DBEpisode) : Option DBEpisode :=
  l.foldl minStep none

/-- Go `findNextEpisode`: both `sql.NullInt32` arguments valid uses the
recorded position, otherwise the position defaults to season 1, number 0;
then the first qualifying episode by `(season, number)` ascending. -/
def findNextEpisode (eps : List DBEpisode) (psid : String)
    (lastSeason lastNumber : Option Int) : Option DBEpisode :=
  let sn : Int × Int :=
    match lastSeason, lastNumber with
    | some s, some n => (s, n)
    | _, _ => (1, 0)
  minByEpKey (eps.filter (nextEpQualifies psid sn.1 sn.2))

/-- Go `getSeasons`: `SELECT DISTINCT season FROM episodes_cache
WHERE provider_show_id = ? ORDER BY season`. -/
def getSeasons (eps : List DBEpisode) (psid : String) : List Int :=
  (((eps.filter (fun e => e.providerShowID == psid)).map
      (fun e => e.season)).dedup).insertionSort (· ≤ ·)

/-- Does a reminder row occupy the `UNIQUE(user_id, show_id)` slot? -/
def remKey (u : Int) (sid : Nat) (r : DBReminder) : Bool :=
  r.userID == u && r.showID == sid

/-- Go `createReminder`: `INSERT INTO reminders ... ON CONFLICT DO NOTHING`;
a conflict on `UNIQUE(user_id, show_id)` leaves the table unchanged and
reports no error. -/
def createReminder (st : DBState) (userID : Int) (showID : Nat)
    (episodeID : Nat) (remindAt : Nat) (chatID : Int) : DBState :=
  if st.reminders.any (remKey userID showID) then st
  else
    { st with
      reminders := st.reminders ++
        [{ id := st.nextReminderID, userID := userID, showID := showID,
           episodeID := episodeID, remindAt := remindAt, chatID := chatID }],
      nextReminderID := st.nextReminderID + 1 }

/-- The `'+5 minutes'` lookahead of `getDueReminders`, in seconds. -/
def dueLookahead : Nat := 300

/-- Is the subscription's `notifications_enabled` flag set?  A reminder whose
show row is missing joins against `NULL`, and `NULL = 1` is false. -/
def showNotificationsEnabled (st : DBState) (sid : Nat) : Bool :=
  match findShowByID st.shows sid with
  | some s => s.notificationsEnabled
  | none => false

/-- Go `getDueReminders`: reminders with
`remind_at <= DATETIME('now', '+5 minutes')` whose show still has
`notifications_enabled = 1`. -/
def getDueReminders (st : DBState) (now : Nat) : List DBReminder :=
  st.reminders.filter (fun r =>
    decide (r.remindAt ≤ now + dueLookahead) && showNotificationsEnabled st r.showID)

/-- Go `updateLastWatchedEpisode`: `UPDATE shows SET
last_watched_episode_id = ? WHERE id = ?`. -/
def updateLastWatchedEpisode (st : DBState) (showID : Nat)
    (episodeID : Nat) : DBState :=
  { st with
    shows := st.shows.map (fun s =>
      if s.id == showID then { s with lastWatchedEpisodeID := some episodeID }
      else s) }

/-- The per-row effect of `toggleShowNotifications`' `UPDATE`: the `CASE
WHEN notifications_enabled = 1 THEN 0 ELSE 1 END` on the 0/1-valued column is
boolean negation, applied only to the row matching `WHERE id = ?`. -/
def toggleRow (showID : Nat) (s : DBShow) : DBShow :=
  if s.id == showID then { s with notificationsEnabled := !s.notificationsEnabled }
  else s

/-- Go `toggleShowNotifications`: `UPDATE shows SET notifications_enabled =
CASE WHEN notifications_enabled = 1 THEN 0 ELSE 1 END WHERE id = ?`. -/
def toggleShowNotifications (st : DBState) (showID : Nat) : DBState :=
  { st with shows := st.shows.map (toggleRow showID) }

/-- Does a show row occupy the `UNIQUE(user_id, provider, provider_show_id)`
slot? -/
def showKeyMatches (userID : Int) (provider psid : String) (s : DBShow) : Bool :=
  s.userID == userID && s.provider == provider && s.providerShowID == psid

/-- Go `addShow`: `INSERT ... ON CONFLICT DO NOTHING`; when no row was
inserted, `SELECT id` of the existing `(user_id, provider, provider_show_id)`
row.  `now` stands for `CURRENT_TIMESTAMP` (the `created_at` default); the
schema defaults supply `timezone = 'UTC'` and `notifications_enabled = 1`:
`freshShowRow` is the row the successful insert produces. -/
def freshShowRow (st : DBState) (userID : Int) (name provider psid : String)
    (now : Nat) : DBShow :=
  { id := st.nextShowID, userID := userID, name := name, provider := provider,
    providerShowID := psid, timezone := "UTC", lastWatchedEpisodeID := none,
    notificationsEnabled := true, createdAt := now }

def addShow (st : DBState) (userID : Int) (name provider psid : String)
    (now : Nat) : Nat × DBState :=
  match st.shows.find? (showKeyMatches userID provider psid) with
  | some s => (s.id, st)
  | none =>
    (st.nextShowID,
     { st with
       shows := st.shows ++ [freshShowRow st userID name provider psid now],
       nextShowID := st.nextShowID + 1 })

/-- Go `getShowNameByID`: `SELECT name FROM shows WHERE id = ?`. -/
def getShowNameByID (st : DBState) (sid : Nat) : Option String :=
  (findShowByID st.shows sid).map (fun s => s.name)

/-- Chaining step (a): `DELETE FROM reminders WHERE id = ?` on the
transaction's working state. -/
def chainDelete (st : DBState) (rem : DBReminder) : DBState :=
  { st with reminders := st.reminders.filter (fun r => !(r.id == rem.id)) }

/-- Chaining steps (a)+(b): after the delete, `UPDATE shows SET
last_watched_episode_id = ? WHERE id = ?` with the just-delivered episode. -/
def chainAdvance (st : DBState) (rem : DBReminder) : DBState :=
  updateLastWatchedEpisode (chainDelete st rem) rem.showID rem.episodeID

/-- Chaining step (c): the next-episode query of `markReminderSent` — the
first episode by `(season, number)` ascending strictly after the sent one,
among the episodes of `(SELECT provider_show_id FROM shows WHERE id = ?)`;
a missing show row makes the subquery yield `NULL`, which matches nothing. -/
def chainNextEpisode (tx : DBState) (rem : DBReminder) (cur : DBEpisode) :
    Option DBEpisode :=
  match findShowByID tx.shows rem.showID with
  | none => none
  | some sh =>
    minByEpKey (tx.episodes.filter
      (nextEpQualifies sh.providerShowID cur.season cur.number))

/-- Go `markReminderSent`, the chaining transaction.  Sub-writes apply to a
transaction working state (`chainAdvance st rem` carries the delete and the
last-watched advancement); `.error` models a `return err` before
`tx.Commit()`, after which the deferred `tx.Rollback()` discards every
sub-write, and `.ok` carries the committed state.  Steps, as in the source:
delete the reminder row; advance `last_watched_episode_id`; read the sent
episode's (season, number) (`ErrNoRows` aborts); find the next episode
(no row commits the delete and update as they stand); read
`notifications_enabled` (`ErrNoRows` aborts); insert the next reminder only
when the next episode has a known air time and notifications are still
enabled. -/
def markReminderSent (st : DBState) (rem : DBReminder) :
    Except String DBState :=
  match findEpisodeByID (chainAdvance st rem).episodes rem.episodeID with
  | none => .error "episode row for the sent reminder not found"
  | some cur =>
    match chainNextEpisode (chainAdvance st rem) rem cur with
    | none => .ok (chainAdvance st rem)
    | some next =>
      match findShowByID (chainAdvance st rem).shows rem.showID with
      | none => .error "show row not found"
      | some sh =>
        if next.airedAtUTC ≠ 0 ∧ sh.notificationsEnabled then
          .ok (createReminder (chainAdvance st rem) rem.userID rem.showID
            next.id next.airedAtUTC rem.chatID)
        else .ok (chainAdvance st rem)

/-- The state the database is left in after the scheduler calls
`markReminderSent` (see `reminderLoop`): the committed state on success, the
rolled-back original state on error (the loop only logs the error). -/
def commitMarkReminderSent (st : DBState) (rem : DBReminder) : DBState :=
  match markReminderSent st rem with
  | .ok st' => st'
  | .error _ => st

/-- The user-visible outcome of the progress-update core of
`handleEpisodeCallback` (which message skeleton is rendered). -/
inductive ProgressOutcome where
  | notFound
  | showNameMissing
  | markedOnly
  | reminderCreated (next : DBEpisode)
  | alreadyAvailable (next : DBEpisode)
  deriving DecidableEq, Repr

/-- The progress-update core of Go `handleEpisodeCallback`, after the episode
number is decoded and the session yields the selected season, provider show
id and internal show id: find the chosen episode (failure is the
"I can't find the episode you specified" error); look up the following
episode as `findEpisodeByNumber(season, episodeNumber+1)`; record the chosen
episode as last watched; fetch the show name (failure renders
"Failed to get show name" and skips the rest); then the three-way branch on
the following episode and its air time (`!IsZero() && After(now)`). -/
def progressUpdate (st : DBState) (userID : Int) (internalID : Nat)
    (psid : String) (season episodeNumber : Int) (chatID : Int) (now : Nat) :
    DBState × ProgressOutcome :=
  match findEpisodeByNumber st.episodes psid season episodeNumber with
  | none => (st, .notFound)
  | some cur =>
    let next? := findEpisodeByNumber st.episodes psid season (episodeNumber + 1)
    let st1 := updateLastWatchedEpisode st internalID cur.id
    match getShowNameByID st1 internalID with
    | none => (st1, .showNameMissing)
    | some _ =>
      match next? with
      | none => (st1, .markedOnly)
      | some next =>
        if next.airedAtUTC ≠ 0 ∧ now < next.airedAtUTC then
          (createReminder st1 userID internalID next.id next.airedAtUTC chatID,
           .reminderCreated next)
        else (st1, .alreadyAvailable next)

/-- Which keyboard `handleShowNameCallback` renders once the subscription is
created and the episodes are cached. -/
inductive KeyboardChoice where
  | episodeRows (season : Int)
  | seasonRows (seasons : List Int)
  deriving DecidableEq, Repr

/-- The season/episode decision of Go `handleShowNameCallback`:
`if len(seasons) == 1` skip to episode selection for `seasons[0]`,
otherwise render one row per season. -/
def showSelectionKeyboard (eps : List DBEpisode) (psid : String) :
    KeyboardChoice :=
  let seasons := getSeasons eps psid
  if seasons.length == 1 then .episodeRows (seasons.headD 0)
  else .seasonRows seasons

/-! ## Order lemmas for the (season, number) key -/

lemma epKeyLt_iff (a b : DBEpisode) :
    epKeyLt a b = true ↔
      (a.season < b.season ∨ (a.season = b.season ∧ a.number < b.number)) := by
  simp [epKeyLt, Bool.or_eq_true, Bool.and_eq_true, decide_eq_true_eq, beq_iff_eq]

lemma bool_eq_false_of_not {b : Bool} (h : ¬ b = true) : b = false := by
  cases b
  · rfl
  · exact absurd rfl h

lemma epKeyLt_false_iff (a b : DBEpisode) :
    epKeyLt a b = false ↔
      (b.season < a.season ∨ (b.season = a.season ∧ b.number ≤ a.number)) := by
  constructor
  · intro h
    have h1 : ¬ (a.season < b.season ∨ (a.season = b.season ∧ a.number < b.number)) := by
      intro hc
      rw [(epKeyLt_iff a b).2 hc] at h
      exact Bool.noConfusion h
    by_cases h2 : b.season < a.season
    · exact Or.inl h2
    · by_cases h3 : a.season < b.season
      · exact absurd (Or.inl h3) h1
      · have h4 : a.season = b.season := le_antisymm (not_lt.1 h2) (not_lt.1 h3)
        have h5 : ¬ a.number < b.number := fun hc => h1 (Or.inr ⟨h4, hc⟩)
        exact Or.inr ⟨h4.symm, not_lt.1 h5⟩
  · intro h
    apply bool_eq_false_of_not
    intro hc
    rcases (epKeyLt_iff a b).1 hc with h1 | ⟨h1, h2⟩ <;>
      rcases h with h3 | ⟨h3, h4⟩ <;> omega

lemma epKeyLt_irrefl (a : DBEpisode) : epKeyLt a a = false := by
  rw [epKeyLt_false_iff]
  exact Or.inr ⟨rfl, le_refl _⟩

lemma epKeyLt_trans {a b c : DBEpisode}
    (hab : epKeyLt a b = true) (hbc : epKeyLt b c = true) :
    epKeyLt a c = true := by
  rw [epKeyLt_iff] at hab hbc ⊢
  rcases hab with h1 | ⟨h1, h2⟩ <;> rcases hbc with h3 | ⟨h3, h4⟩ <;> omega

lemma epKeyLt_false_lt_trans {a b c : DBEpisode}
    (hab : epKeyLt b a = false) (hbc : epKeyLt b c = true) :
    epKeyLt a c = true := by
  rw [epKeyLt_false_iff] at hab
  rw [epKeyLt_iff] at hbc ⊢
  rcases hab with h1 | ⟨h1, h2⟩ <;> rcases hbc with h3 | ⟨h3, h4⟩ <;> omega

/-! ## The `ORDER BY season, number LIMIT 1` fold -/

lemma foldl_minStep_spec (l : List DBEpisode) : ∀ (a : DBEpisode),
    ∃ b, l.foldl minStep (some a) = some b ∧ (b = a ∨ b ∈ l) ∧
      epKeyLt a b = false ∧ ∀ x ∈ l, epKeyLt x b = false := by
  induction l with
  | nil =>
    intro a
    exact ⟨a, rfl, Or.inl rfl, epKeyLt_irrefl a, by simp⟩
  | cons e t ih =>
    intro a
    by_cases he : epKeyLt e a = true
    · obtain ⟨b, hb, hmem, hba, hall⟩ := ih e
      refine ⟨b, ?_, ?_, ?_, ?_⟩
      · simpa [minStep, he] using hb
      · rcases hmem with h | h
        · exact Or.inr (h ▸ List.mem_cons_self e t)
        · exact Or.inr (List.mem_cons_of_mem e h)
      · apply bool_eq_false_of_not
        intro hc
        have h2 := epKeyLt_trans he hc
        rw [h2] at hba
        exact Bool.noConfusion hba
      · intro x hx
        rcases List.mem_cons.1 hx with h | h
        · exact h ▸ hba
        · exact hall x h
    · have he' : epKeyLt e a = false := bool_eq_false_of_not he
      obtain ⟨b, hb, hmem, hba, hall⟩ := ih a
      refine ⟨b, ?_, ?_, hba, ?_⟩
      · simpa [minStep, he'] using hb
      · rcases hmem with h | h
        · exact Or.inl h
        · exact Or.inr (List.mem_cons_of_mem e h)
      · intro x hx
        rcases List.mem_cons.1 hx with h | h
        · subst h
          apply bool_eq_false_of_not
          intro hc
          have h2 := epKeyLt_false_lt_trans he' hc
          rw [h2] at hba
          exact Bool.noConfusion hba
        · exact hall x h

lemma minByEpKey_spec (l : List DBEpisode) (e : DBEpisode)
    (h : minByEpKey l = some e) :
    e ∈ l ∧ ∀ x ∈ l, epKeyLt x e = false := by
  cases l with
  | nil => simp [minByEpKey] at h
  | cons a t =>
    obtain ⟨b, hb, hmem, hba, hall⟩ := foldl_minStep_spec t a
    rw [minByEpKey, List.foldl_cons] at h
    have hstep : minStep none a = some a := rfl
    rw [hstep, hb] at h
    obtain rfl : b = e := by injection h
    constructor
    · rcases hmem with h1 | h1
      · exact h1 ▸ List.mem_cons_self a t
      · exact List.mem_cons_of_mem a h1
    · intro x hx
      rcases List.mem_cons.1 hx with h1 | h1
      · exact h1 ▸ hba
      · exact hall x h1

/-! ## Sample episode set {(1,1), (1,2), (2,1)} used by the specification -/

def epS1E1 : DBEpisode :=
  ⟨1, "tvmaze", "show1", "e11", 1, 1, "a", "", "", 0, 0⟩

def epS1E2 : DBEpisode :=
  ⟨2, "tvmaze", "show1", "e12", 1, 2, "b", "", "", 0, 0⟩

def epS2E1 : DBEpisode :=
  ⟨3, "tvmaze", "show1", "e21", 2, 1, "c", "", "", 1000, 0⟩

def sampleEpisodes : List DBEpisode := [epS1E1, epS1E2, epS2E1]

/-- C5: for every show's cached episode set, `findNextEpisode` returns a
qualifying episode that is (season, number)-lexicographically minimal among
the episodes strictly after the last-watched position; qualifying is exactly
"same show and lexicographically greater than the position" (so the query
rolls over to the next season); an absent position is treated as season 1,
number 0; and on the sample set {(1,1),(1,2),(2,1)} no progress yields
(1,1) while position (1,2) yields (2,1). -/
theorem findNextEpisode_minimal_after_position :
    (∀ (eps : List DBEpisode) (psid : String) (s n : Int) (e : DBEpisode),
        findNextEpisode eps psid (some s) (some n) = some e →
          e ∈ eps ∧ nextEpQualifies psid s n e = true ∧
          ∀ x ∈ eps, nextEpQualifies psid s n x = true → epKeyLt x e = false)
    ∧ (∀ (psid : String) (s n : Int) (e : DBEpisode),
        nextEpQualifies psid s n e = true ↔
          e.providerShowID = psid ∧
            (s < e.season ∨ (s = e.season ∧ n < e.number)))
    ∧ (∀ (eps : List DBEpisode) (psid : String),
        findNextEpisode eps psid none none = findNextEpisode eps psid (some 1) (some 0))
    ∧ findNextEpisode sampleEpisodes "show1" none none = some epS1E1
    ∧ findNextEpisode sampleEpisodes "show1" (some 1) (some 2) = some epS2E1 := by
  refine ⟨?_, ?_, ?_, by decide, by decide⟩
  · intro eps psid s n e h
    rw [findNextEpisode] at h
    obtain ⟨hmem, hmin⟩ := minByEpKey_spec _ _ h
    rw [List.mem_filter] at hmem
    exact ⟨hmem.1, hmem.2, fun x hx hq => hmin x (List.mem_filter.2 ⟨hx, hq⟩)⟩
  · intro psid s n e
    simp [nextEpQualifies, Bool.and_eq_true, Bool.or_eq_true,
      decide_eq_true_eq, beq_iff_eq]
    tauto
  · intro eps psid
    rfl

/-- C5 witness: the general part of
`findNextEpisode_minimal_after_position` applied to the sample set at
position (1, 2), whose result is the (2, 1) episode. -/
theorem findNextEpisode_minimal_after_position_witness :
    epS2E1 ∈ sampleEpisodes ∧ nextEpQualifies "show1" 1 2 epS2E1 = true :=
  ⟨(findNextEpisode_minimal_after_position.1 sampleEpisodes "show1" 1 2 epS2E1
      (by decide)).1,
   (findNextEpisode_minimal_after_position.1 sampleEpisodes "show1" 1 2 epS2E1
      (by decide)).2.1⟩

/-! ## C6: due-reminder selection -/

/-- C6: a poll of the scheduler selects exactly the reminders whose due
timestamp is at or before now plus the fixed 5-minute (300-second) lookahead
and whose subscription still has notifications enabled; in particular a
reminder of a notifications-disabled subscription is never selected, even
when past due. -/
theorem getDueReminders_selects_enabled_due (st : DBState) (now : Nat)
    (r : DBReminder) :
    (r ∈ getDueReminders st now ↔
      r ∈ st.reminders ∧ r.remindAt ≤ now + 300 ∧
        showNotificationsEnabled st r.showID = true) ∧
    (showNotificationsEnabled st r.showID = false →
      r ∉ getDueReminders st now) := by
  have hiff : r ∈ getDueReminders st now ↔
      r ∈ st.reminders ∧ r.remindAt ≤ now + 300 ∧
        showNotificationsEnabled st r.showID = true := by
    simp [getDueReminders, List.mem_filter, dueLookahead, Bool.and_eq_true,
      decide_eq_true_eq, and_assoc]
  refine ⟨hiff, fun hdis hc => ?_⟩
  have h := (hiff.1 hc).2.2
  rw [hdis] at h
  exact Bool.noConfusion h

def c6Show : DBShow :=
  ⟨1, 7, "Foo", "tvmaze", "show1", "UTC", none, false, 0⟩

def c6Rem : DBReminder := ⟨1, 7, 1, 3, 100, 5⟩

def c6St : DBState := ⟨[c6Show], sampleEpisodes, [c6Rem], 2, 2⟩

/-- C6 witness: a past-due reminder (due 100, polled at 1000) of a
notifications-disabled subscription is not selected. -/
theorem getDueReminders_selects_enabled_due_witness :
    c6Rem ∉ getDueReminders c6St 1000 :=
  (getDueReminders_selects_enabled_due c6St 1000 c6Rem).2 (by decide)

/-! ## C7: re-adding a tracked show -/

lemma find?_append_none {α : Type} (p : α → Bool) {l₁ : List α}
    (h : l₁.find? p = none) (l₂ : List α) :
    (l₁ ++ l₂).find? p = l₂.find? p := by
  induction l₁ with
  | nil => simp
  | cons a t ih =>
    cases hpa : p a with
    | true => simp [List.find?, hpa] at h
    | false =>
      rw [List.find?_cons_of_neg _ (by simp [hpa])] at h
      rw [List.cons_append, List.find?_cons_of_neg _ (by simp [hpa])]
      exact ih h

/-- C7: re-adding an already-tracked (user, provider, provider-show-id) is
idempotent: when a matching subscription row exists, `addShow` returns its id
and leaves the state unchanged (no duplicate row), and re-adding right after
the original `addShow` returns exactly the original identity and state,
whatever display name the second call carries. -/
theorem addShow_reAdd_idempotent (st : DBState) (u : Int)
    (name prov psid : String) (now : Nat) (name2 : String) (now2 : Nat) :
    (∀ s, st.shows.find? (showKeyMatches u prov psid) = some s →
        addShow st u name2 prov psid now2 = (s.id, st))
    ∧ addShow (addShow st u name prov psid now).2 u name2 prov psid now2
        = addShow st u name prov psid now := by
  constructor
  · intro s hs
    rw [addShow, hs]
  · cases hf : st.shows.find? (showKeyMatches u prov psid) with
    | some s0 =>
      have h1 : addShow st u name prov psid now = (s0.id, st) := by
        rw [addShow, hf]
      rw [h1]
      show addShow st u name2 prov psid now2 = (s0.id, st)
      rw [addShow, hf]
    | none =>
      have h1 : addShow st u name prov psid now =
          (st.nextShowID,
           { st with
             shows := st.shows ++ [freshShowRow st u name prov psid now],
             nextShowID := st.nextShowID + 1 }) := by
        rw [addShow, hf]
      rw [h1]
      show addShow
          { st with
            shows := st.shows ++ [freshShowRow st u name prov psid now],
            nextShowID := st.nextShowID + 1 } u name2 prov psid now2 =
        (st.nextShowID,
         { st with
           shows := st.shows ++ [freshShowRow st u name prov psid now],
           nextShowID := st.nextShowID + 1 })
      rw [addShow]
      have hnew : (st.shows ++ [freshShowRow st u name prov psid now]).find?
          (showKeyMatches u prov psid) =
          some (freshShowRow st u name prov psid now) := by
        rw [find?_append_none _ hf]
        simp [List.find?, showKeyMatches, freshShowRow]
      show (match (st.shows ++ [freshShowRow st u name prov psid now]).find?
          (showKeyMatches u prov psid) with
        | some s => (s.id,
            { st with
              shows := st.shows ++ [freshShowRow st u name prov psid now],
              nextShowID := st.nextShowID + 1 })
        | none => _) = _
      rw [hnew]
      rfl

def c7Show : DBShow :=
  ⟨4, 7, "Foo", "tvmaze", "42", "UTC", none, true, 0⟩

def c7St : DBState := ⟨[c7Show], [], [], 5, 1⟩

/-- C7 witness: re-adding the already-tracked show of `c7St` (under a
different display name) returns the original id 4 and the unchanged state. -/
theorem addShow_reAdd_idempotent_witness :
    addShow c7St 7 "Bar" "tvmaze" "42" 99 = (4, c7St) :=
  (addShow_reAdd_idempotent c7St 7 "Foo" "tvmaze" "42" 0 "Bar" 99).1 c7Show
    (by decide)

/-! ## C9: toggling notifications -/

lemma toggleRow_involutive (sid : Nat) (s : DBShow) :
    toggleRow sid (toggleRow sid s) = s := by
  by_cases h : (s.id == sid) = true
  · have hA : (({ s with notificationsEnabled := !s.notificationsEnabled } :
        DBShow).id == sid) = true := h
    rw [toggleRow, toggleRow, if_pos h, if_pos hA]
    simp [Bool.not_not]
  · rw [toggleRow, toggleRow, if_neg h, if_neg h]

/-- C9: `toggleShowNotifications` is a self-inverse operation on the
persistent state: applying it twice restores the state exactly; one
application leaves the episode and reminder tables and the id counters
untouched; and, row by row, the targeted show row has only its
`notifications_enabled` flag negated (0 becomes 1 and 1 becomes 0) while
every other field — and every non-targeted row entirely — is unchanged. -/
theorem toggleShowNotifications_self_inverse (st : DBState) (sid : Nat) :
    toggleShowNotifications (toggleShowNotifications st sid) sid = st
    ∧ (toggleShowNotifications st sid).episodes = st.episodes
    ∧ (toggleShowNotifications st sid).reminders = st.reminders
    ∧ (toggleShowNotifications st sid).nextShowID = st.nextShowID
    ∧ (toggleShowNotifications st sid).nextReminderID = st.nextReminderID
    ∧ List.Forall₂ (fun a b =>
        b.id = a.id ∧ b.userID = a.userID ∧ b.name = a.name ∧
        b.provider = a.provider ∧ b.providerShowID = a.providerShowID ∧
        b.timezone = a.timezone ∧
        b.lastWatchedEpisodeID = a.lastWatchedEpisodeID ∧
        b.createdAt = a.createdAt ∧
        b.notificationsEnabled =
          (if a.id = sid then !a.notificationsEnabled
           else a.notificationsEnabled))
      st.shows (toggleShowNotifications st sid).shows := by
  have h2 : (toggleRow sid ∘ toggleRow sid) = id :=
    funext (toggleRow_involutive sid)
  refine ⟨?_, rfl, rfl, rfl, rfl, ?_⟩
  · simp [toggleShowNotifications, List.map_map, h2]
  · rw [toggleShowNotifications]
    show List.Forall₂ _ st.shows (st.shows.map (toggleRow sid))
    rw [List.forall₂_map_right_iff, List.forall₂_same]
    intro s _
    by_cases h : s.id = sid
    · simp [toggleRow, h]
    · simp [toggleRow, h]

/-! ## C8: season split after show selection -/

lemma mem_getSeasons_iff (eps : List DBEpisode) (psid : String) (a : Int) :
    a ∈ getSeasons eps psid ↔
      ∃ e ∈ eps, e.providerShowID = psid ∧ e.season = a := by
  rw [getSeasons, (List.perm_insertionSort _ _).mem_iff, List.mem_dedup,
    List.mem_map]
  constructor
  · rintro ⟨e, he, rfl⟩
    rw [List.mem_filter] at he
    exact ⟨e, he.1, by simpa [beq_iff_eq] using he.2, rfl⟩
  · rintro ⟨e, he, hpsid, rfl⟩
    exact ⟨e, List.mem_filter.2 ⟨he, by simpa [beq_iff_eq] using hpsid⟩, rfl⟩

/-- C8: once a show selection succeeds and the episodes are cached, the
keyboard decision is driven by the distinct-season list: exactly one distinct
season (so `getSeasons` is a singleton `[s]`, and every cached episode of the
show lies in season `s`) skips season selection and renders episode rows for
that season; two or more seasons render season rows instead. -/
theorem showSelectionKeyboard_season_split (eps : List DBEpisode)
    (psid : String) :
    (∀ s : Int, getSeasons eps psid = [s] →
        showSelectionKeyboard eps psid = KeyboardChoice.episodeRows s ∧
        ∀ e ∈ eps, e.providerShowID = psid → e.season = s)
    ∧ (2 ≤ (getSeasons eps psid).length →
        showSelectionKeyboard eps psid =
          KeyboardChoice.seasonRows (getSeasons eps psid)) := by
  constructor
  · intro s hs
    constructor
    · rw [showSelectionKeyboard]
      simp [hs]
    · intro e he hpsid
      have h1 : e.season ∈ getSeasons eps psid :=
        (mem_getSeasons_iff eps psid e.season).2 ⟨e, he, hpsid, rfl⟩
      rw [hs, List.mem_singleton] at h1
      exact h1
  · intro h2
    rw [showSelectionKeyboard]
    have hlen : ((getSeasons eps psid).length == 1) = false := by
      rw [beq_eq_false_iff_ne]
      omega
    simp [hlen]

def c8Eps : List DBEpisode := [epS1E1, epS1E2]

/-- C8 witness: the one-season set {(1,1),(1,2)} renders episode rows for
season 1 directly, while the two-season sample set renders season rows. -/
theorem showSelectionKeyboard_season_split_witness :
    showSelectionKeyboard c8Eps "show1" = KeyboardChoice.episodeRows 1 ∧
    showSelectionKeyboard sampleEpisodes "show1" =
      KeyboardChoice.seasonRows [1, 2] := by
  constructor
  · exact ((showSelectionKeyboard_season_split c8Eps "show1").1 1 (by decide)).1
  · rw [(showSelectionKeyboard_season_split sampleEpisodes "show1").2 (by decide)]
    decide

/-! ## Lookup lemmas for updated show tables -/

lemma find?_map_update (l : List DBShow) (i : Nat) (f : DBShow → DBShow)
    (hf : ∀ s, (f s).id = s.id) :
    (l.map (fun s => if s.id == i then f s else s)).find?
        (fun s => s.id == i) =
      (l.find? (fun s => s.id == i)).map f := by
  induction l with
  | nil => rfl
  | cons a t ih =>
    simp only [List.map_cons]
    by_cases h : (a.id == i) = true
    · rw [if_pos h]
      have hfa : ((f a).id == i) = true := by rw [hf a]; exact h
      have h1 : List.find? (fun s : DBShow => s.id == i)
          (f a :: List.map (fun s : DBShow => if s.id == i then f s else s) t) =
          some (f a) := by
        simp [hfa]
      have h2 : List.find? (fun s : DBShow => s.id == i) (a :: t) = some a := by
        simp [h]
      rw [h1, h2]
      rfl
    · rw [if_neg h]
      have h' := bool_eq_false_of_not h
      have h1 : List.find? (fun s : DBShow => s.id == i)
          (a :: List.map (fun s : DBShow => if s.id == i then f s else s) t) =
          List.find? (fun s : DBShow => s.id == i)
            (List.map (fun s : DBShow => if s.id == i then f s else s) t) := by
        simp [h']
      have h2 : List.find? (fun s : DBShow => s.id == i) (a :: t) =
          List.find? (fun s : DBShow => s.id == i) t := by
        simp [h']
      rw [h1, h2, ih]

lemma findShowByID_updateLastWatched (st : DBState) (i : Nat) (eid : Nat) :
    findShowByID (updateLastWatchedEpisode st i eid).shows i =
      (findShowByID st.shows i).map
        (fun s => { s with lastWatchedEpisodeID := some eid }) := by
  rw [updateLastWatchedEpisode]
  exact find?_map_update st.shows i _ (fun s => rfl)

lemma getShowNameByID_updateLastWatched (st : DBState) (i : Nat) (eid : Nat) :
    getShowNameByID (updateLastWatchedEpisode st i eid) i =
      getShowNameByID st i := by
  rw [getShowNameByID, getShowNameByID, findShowByID_updateLastWatched]
  cases findShowByID st.shows i <;> rfl

/-- Does the show row `sid` record `eid` as its last-watched episode? -/
def lastWatchedIs (st : DBState) (sid : Nat) (eid : Nat) : Bool :=
  match findShowByID st.shows sid with
  | some s => s.lastWatchedEpisodeID == some eid
  | none => false

lemma lastWatchedIs_updateLastWatched (st : DBState) (sid eid : Nat)
    (hshow : (findShowByID st.shows sid).isSome = true) :
    lastWatchedIs (updateLastWatchedEpisode st sid eid) sid eid = true := by
  rw [lastWatchedIs, findShowByID_updateLastWatched]
  cases h : findShowByID st.shows sid with
  | none => rw [h] at hshow; exact Bool.noConfusion hshow
  | some s => simp

lemma createReminder_shows (st : DBState) (u : Int) (sid eid t : Nat)
    (c : Int) : (createReminder st u sid eid t c).shows = st.shows := by
  rw [createReminder]
  split <;> rfl

/-- Is a reminder row with exactly these fields present? -/
def hasReminderRow (st : DBState) (u : Int) (sid eid t : Nat) (c : Int) :
    Bool :=
  st.reminders.any (fun r =>
    r.userID == u && r.showID == sid && r.episodeID == eid &&
      r.remindAt == t && r.chatID == c)

lemma hasReminderRow_createReminder (st : DBState) (u : Int)
    (sid eid t : Nat) (c : Int)
    (hfree : st.reminders.any (remKey u sid) = false) :
    hasReminderRow (createReminder st u sid eid t c) u sid eid t c = true := by
  rw [createReminder, hfree]
  simp [hasReminderRow, List.any_append]

lemma createReminder_reminders_conflict (st : DBState) (u : Int)
    (sid eid t : Nat) (c : Int)
    (hbusy : st.reminders.any (remKey u sid) = true) :
    createReminder st u sid eid t c = st := by
  rw [createReminder, hbusy]
  rfl

/-! ## C4: the three-way progress-update branch -/

/-- C4: for a progress update whose chosen episode exists (and whose show
row exists, so the show name resolves): with no following (same-season
successor) episode, the chosen episode is recorded as last-watched and no
reminder is created; with a following episode whose air time is known and
strictly in the future, the chosen episode is recorded as last-watched and —
when the `(user, show)` reminder slot is free — a pending reminder for the
following episode at its air time is inserted; with a following episode
whose air time is unknown or not in the future, the chosen episode is
recorded as last-watched, the outcome reports it as already available, and
no reminder is created. -/
theorem progressUpdate_three_way (st : DBState) (u : Int) (iid : Nat)
    (psid : String) (season num : Int) (chat : Int) (now : Nat)
    (cur : DBEpisode)
    (hcur : findEpisodeByNumber st.episodes psid season num = some cur)
    (hshow : (findShowByID st.shows iid).isSome = true) :
    (findEpisodeByNumber st.episodes psid season (num + 1) = none →
      (progressUpdate st u iid psid season num chat now).2 =
          ProgressOutcome.markedOnly ∧
        lastWatchedIs (progressUpdate st u iid psid season num chat now).1
          iid cur.id = true ∧
        (progressUpdate st u iid psid season num chat now).1.reminders =
          st.reminders)
    ∧ (∀ next,
        findEpisodeByNumber st.episodes psid season (num + 1) = some next →
        (next.airedAtUTC ≠ 0 ∧ now < next.airedAtUTC →
          (progressUpdate st u iid psid season num chat now).2 =
              ProgressOutcome.reminderCreated next ∧
            lastWatchedIs (progressUpdate st u iid psid season num chat now).1
              iid cur.id = true ∧
            ((updateLastWatchedEpisode st iid cur.id).reminders.any
                (remKey u iid) = false →
              hasReminderRow
                (progressUpdate st u iid psid season num chat now).1
                u iid next.id next.airedAtUTC chat = true))
        ∧ (¬ (next.airedAtUTC ≠ 0 ∧ now < next.airedAtUTC) →
          (progressUpdate st u iid psid season num chat now).2 =
              ProgressOutcome.alreadyAvailable next ∧
            lastWatchedIs (progressUpdate st u iid psid season num chat now).1
              iid cur.id = true ∧
            (progressUpdate st u iid psid season num chat now).1.reminders =
              st.reminders)) := by
  obtain ⟨s0, hs0⟩ : ∃ s0, findShowByID st.shows iid = some s0 := by
    cases h : findShowByID st.shows iid with
    | none => rw [h] at hshow; exact Bool.noConfusion hshow
    | some s0 => exact ⟨s0, rfl⟩
  have hname : getShowNameByID (updateLastWatchedEpisode st iid cur.id) iid =
      some s0.name := by
    rw [getShowNameByID_updateLastWatched, getShowNameByID, hs0]
    rfl
  constructor
  · intro hnone
    have hpu : progressUpdate st u iid psid season num chat now =
        (updateLastWatchedEpisode st iid cur.id, ProgressOutcome.markedOnly) := by
      simp only [progressUpdate, hcur, hnone, hname]
    rw [hpu]
    exact ⟨rfl, lastWatchedIs_updateLastWatched st iid cur.id hshow, rfl⟩
  · intro next hnext
    constructor
    · intro hfut
      have hpu : progressUpdate st u iid psid season num chat now =
          (createReminder (updateLastWatchedEpisode st iid cur.id) u iid
            next.id next.airedAtUTC chat,
           ProgressOutcome.reminderCreated next) := by
        simp only [progressUpdate, hcur, hnext, hname, if_pos hfut]
      rw [hpu]
      refine ⟨rfl, ?_, ?_⟩
      · rw [lastWatchedIs, createReminder_shows]
        have := lastWatchedIs_updateLastWatched st iid cur.id hshow
        rw [lastWatchedIs] at this
        exact this
      · intro hfree
        exact hasReminderRow_createReminder _ u iid next.id next.airedAtUTC
          chat hfree
    · intro hfut
      have hpu : progressUpdate st u iid psid season num chat now =
          (updateLastWatchedEpisode st iid cur.id,
           ProgressOutcome.alreadyAvailable next) := by
        simp only [progressUpdate, hcur, hnext, hname, if_neg hfut]
      rw [hpu]
      exact ⟨rfl, lastWatchedIs_updateLastWatched st iid cur.id hshow, rfl⟩

def epS1E5 : DBEpisode :=
  ⟨4, "tvmaze", "show2", "e15", 1, 5, "d", "", "", 0, 0⟩

def epS1E6 : DBEpisode :=
  ⟨5, "tvmaze", "show2", "e16", 1, 6, "f", "", "", 2000, 0⟩

def c4Show : DBShow :=
  ⟨2, 7, "Bar", "tvmaze", "show2", "UTC", none, true, 0⟩

def c4St : DBState := ⟨[c4Show], [epS1E5, epS1E6], [], 3, 1⟩

/-- C4 witness: the specification scenario — the user is on S01E05 and
S01E06 airs in the future (2000, now = 100): last-watched becomes the (1,5)
episode and a reminder for the (1,6) episode at its air time exists. -/
theorem progressUpdate_three_way_witness :
    (progressUpdate c4St 7 2 "show2" 1 5 5 100).2 =
      ProgressOutcome.reminderCreated epS1E6 ∧
    lastWatchedIs (progressUpdate c4St 7 2 "show2" 1 5 5 100).1 2
      epS1E5.id = true ∧
    hasReminderRow (progressUpdate c4St 7 2 "show2" 1 5 5 100).1 7 2
      epS1E6.id epS1E6.airedAtUTC 5 = true := by
  have h := ((progressUpdate_three_way c4St 7 2 "show2" 1 5 5 100 epS1E5
    (by decide) (by decide)).2 epS1E6 (by decide)).1 (by decide)
  exact ⟨h.1, h.2.1, h.2.2 (by decide)⟩

/-! ## C3: the following-episode lookup (corrected) -/

def c3Show : DBShow :=
  ⟨1, 7, "Foo", "tvmaze", "show1", "UTC", none, true, 0⟩

def c3St : DBState := ⟨[c3Show], sampleEpisodes, [], 2, 1⟩

/-- C3 counterexample: with cached episodes {(1,1),(1,2),(2,1)} where (2,1)
has a future air time (1000, now = 100), updating progress to the chosen
episode (1,2) — the last of its season — yields `markedOnly` and creates no
reminder, because the code consults `findEpisodeByNumber(season, number+1)`
and finds nothing, even though the (season, number)-lexicographically
following episode (2,1) exists and `findNextEpisode` returns it. -/
theorem progressUpdate_no_season_rollover :
    (progressUpdate c3St 7 1 "show1" 1 2 5 100).2 =
      ProgressOutcome.markedOnly ∧
    (progressUpdate c3St 7 1 "show1" 1 2 5 100).1.reminders = [] ∧
    findNextEpisode c3St.episodes "show1" (some 1) (some 2) = some epS2E1 ∧
    epS2E1.season = 2 ∧ epS2E1.number = 1 ∧ 100 < epS2E1.airedAtUTC := by
  decide

/-- C3 amended: the progress update's following-episode lookup is restricted
to the chosen episode's own season — `findEpisodeByNumber(psid, season,
number+1)` — with no rollover into the next season: whenever no
(season, number+1) episode is cached, the outcome is `markedOnly` and no
reminder is created, even when a (season, number)-lexicographically
following episode in a later season exists. -/
theorem progressUpdate_following_same_season (st : DBState) (u : Int)
    (iid : Nat) (psid : String) (season num : Int) (chat : Int) (now : Nat)
    (cur nx : DBEpisode)
    (hcur : findEpisodeByNumber st.episodes psid season num = some cur)
    (hshow : (findShowByID st.shows iid).isSome = true)
    (hnone : findEpisodeByNumber st.episodes psid season (num + 1) = none)
    (_hnx : findNextEpisode st.episodes psid (some season) (some num) =
      some nx) :
    (progressUpdate st u iid psid season num chat now).2 =
      ProgressOutcome.markedOnly ∧
    (progressUpdate st u iid psid season num chat now).1.reminders =
      st.reminders := by
  obtain ⟨s0, hs0⟩ : ∃ s0, findShowByID st.shows iid = some s0 := by
    cases h : findShowByID st.shows iid with
    | none => rw [h] at hshow; exact Bool.noConfusion hshow
    | some s0 => exact ⟨s0, rfl⟩
  have hname : getShowNameByID (updateLastWatchedEpisode st iid cur.id) iid =
      some s0.name := by
    rw [getShowNameByID_updateLastWatched, getShowNameByID, hs0]
    rfl
  have hpu : progressUpdate st u iid psid season num chat now =
      (updateLastWatchedEpisode st iid cur.id, ProgressOutcome.markedOnly) := by
    simp only [progressUpdate, hcur, hnone, hname]
  rw [hpu]
  exact ⟨rfl, rfl⟩

/-- C3 witness for the amended claim: the counterexample state, where the
lexicographic next episode (2,1) exists but the update of position (1,2)
still ends with `markedOnly` and an unchanged (empty) reminder table. -/
theorem progressUpdate_following_same_season_witness :
    (progressUpdate c3St 7 1 "show1" 1 2 5 100).2 =
      ProgressOutcome.markedOnly ∧
    (progressUpdate c3St 7 1 "show1" 1 2 5 100).1.reminders =
      c3St.reminders :=
  progressUpdate_following_same_season c3St 7 1 "show1" 1 2 5 100 epS1E2
    epS2E1 (by decide) (by decide) (by decide) (by decide)

/-! ## The chaining transaction: uniqueness, rollback, disabled chains -/

lemma chainAdvance_reminders (st : DBState) (rem : DBReminder) :
    (chainAdvance st rem).reminders =
      st.reminders.filter (fun r => !(r.id == rem.id)) := rfl

lemma any_eq_false_forall {α : Type} (p : α → Bool) (l : List α)
    (h : l.any p = false) : ∀ b ∈ l, p b = false := by
  intro b hb
  apply bool_eq_false_of_not
  intro hpb
  have h2 : l.any p = true := List.any_eq_true.2 ⟨b, hb, hpb⟩
  rw [h2] at h
  exact Bool.noConfusion h

/-- Whatever path the chaining transaction commits through, the committed
reminder table is the deleted table, possibly followed by one inserted row
for the processed reminder's `(user_id, show_id)` slot — and the insert only
happens when that slot is free. -/
lemma markReminderSent_ok_cases (st : DBState) (rem : DBReminder)
    (st' : DBState) (hok : markReminderSent st rem = .ok st') :
    st'.reminders = (chainAdvance st rem).reminders ∨
    ((chainAdvance st rem).reminders.any (remKey rem.userID rem.showID)
        = false ∧
      ∃ nr, remKey rem.userID rem.showID nr = true ∧
        st'.reminders = (chainAdvance st rem).reminders ++ [nr]) := by
  rw [markReminderSent] at hok
  cases h1 : findEpisodeByID (chainAdvance st rem).episodes rem.episodeID with
  | none => rw [h1] at hok; exact Except.noConfusion hok
  | some cur =>
    simp only [h1] at hok
    cases h2 : chainNextEpisode (chainAdvance st rem) rem cur with
    | none =>
      simp only [h2] at hok
      injection hok with h
      subst h
      exact Or.inl rfl
    | some next =>
      simp only [h2] at hok
      cases h3 : findShowByID (chainAdvance st rem).shows rem.showID with
      | none => simp only [h3] at hok; exact Except.noConfusion hok
      | some sh =>
        simp only [h3] at hok
        by_cases h4 : next.airedAtUTC ≠ 0 ∧ sh.notificationsEnabled = true
        · rw [if_pos h4] at hok
          rw [createReminder] at hok
          cases h5 : (chainAdvance st rem).reminders.any
              (remKey rem.userID rem.showID) with
          | true =>
            rw [h5, if_pos rfl] at hok
            injection hok with h
            subst h
            exact Or.inl rfl
          | false =>
            rw [h5, if_neg (by simp)] at hok
            injection hok with h
            subst h
            refine Or.inr ⟨rfl, ⟨(chainAdvance st rem).nextReminderID,
              rem.userID, rem.showID, next.id, next.airedAtUTC, rem.chatID⟩,
              by simp [remKey], rfl⟩
        · rw [if_neg h4] at hok
          injection hok with h
          subst h
          exact Or.inl rfl

/-- The `UNIQUE(user_id, show_id)` invariant on the reminder table, as the
pairwise statement that no two rows share a slot. -/
def RemindersUnique (l : List DBReminder) : Prop :=
  l.Pairwise (fun a b => ¬ (a.userID = b.userID ∧ a.showID = b.showID))

lemma countP_le_one_of_remindersUnique (l : List DBReminder) (u : Int)
    (sid : Nat) :
    RemindersUnique l → l.countP (remKey u sid) ≤ 1 := by
  induction l with
  | nil => intro _; simp
  | cons a t ih =>
    intro hu
    rw [RemindersUnique, List.pairwise_cons] at hu
    obtain ⟨ha, ht⟩ := hu
    rw [List.countP_cons]
    by_cases hk : remKey u sid a = true
    · have hzero : t.countP (remKey u sid) = 0 := by
        rw [List.countP_eq_zero]
        intro b hb hkb
        rw [remKey, Bool.and_eq_true, beq_iff_eq, beq_iff_eq] at hk hkb
        exact ha b hb ⟨hk.1.trans hkb.1.symm, hk.2.trans hkb.2.symm⟩
      rw [hzero, hk]
      simp
    · rw [bool_eq_false_of_not hk]
      simpa using ih ht

/-- C1: when the state satisfies the per-slot uniqueness invariant, a
successfully committed chaining transaction leaves at most one pending
reminder row for the processed `(user, show)` pair — zero or one, never
two — and inserting a reminder for a slot that already holds a pending one
is a silent no-op that returns the state unchanged. -/
theorem markReminderSent_at_most_one_reminder (st : DBState)
    (rem : DBReminder) (st' : DBState) (u : Int) (sid : Nat) (eid t : Nat)
    (c : Int) (hu : RemindersUnique st.reminders) :
    (markReminderSent st rem = .ok st' →
      st'.reminders.countP (remKey rem.userID rem.showID) ≤ 1)
    ∧ (st.reminders.any (remKey u sid) = true →
      createReminder st u sid eid t c = st) := by
  constructor
  · intro hok
    rcases markReminderSent_ok_cases st rem st' hok with h | ⟨hfree, nr, hnr, heq⟩
    · rw [h, chainAdvance_reminders]
      exact le_trans ((List.filter_sublist _).countP_le _)
        (countP_le_one_of_remindersUnique st.reminders _ _ hu)
    · rw [heq, List.countP_append]
      have h0 : (chainAdvance st rem).reminders.countP
          (remKey rem.userID rem.showID) = 0 := by
        rw [List.countP_eq_zero]
        intro b hb hkb
        have h2 := any_eq_false_forall _ _ hfree b hb
        rw [hkb] at h2
        exact Bool.noConfusion h2
      rw [h0]
      simp [List.countP_cons, hnr]
  · intro hbusy
    exact createReminder_reminders_conflict st u sid eid t c hbusy

def c1Show : DBShow :=
  ⟨4, 9, "Qux", "tvmaze", "show4", "UTC", none, true, 0⟩

def epS4a : DBEpisode :=
  ⟨8, "tvmaze", "show4", "e41", 1, 1, "p", "", "", 500, 0⟩

def epS4b : DBEpisode :=
  ⟨9, "tvmaze", "show4", "e42", 1, 2, "q", "", "", 3000, 0⟩

def c1Rem : DBReminder := ⟨2, 9, 4, 8, 500, 11⟩

def c1St : DBState := ⟨[c1Show], [epS4a, epS4b], [c1Rem], 5, 3⟩

/-- C1 witness: processing the due reminder of `c1St` (which re-arms a
reminder for the (1,2) episode) leaves exactly one pending reminder for the
pair (user 9, show 4), and re-inserting into the occupied slot of `c1St` is
a no-op. -/
theorem markReminderSent_at_most_one_reminder_witness :
    (commitMarkReminderSent c1St c1Rem).reminders.countP (remKey 9 4) ≤ 1 ∧
    createReminder c1St 9 4 9 3000 11 = c1St := by
  constructor
  · exact (markReminderSent_at_most_one_reminder c1St c1Rem
      (commitMarkReminderSent c1St c1Rem) 9 4 9 3000 11
      (by simp [RemindersUnique, c1St])).1 rfl
  · exact (markReminderSent_at_most_one_reminder c1St c1Rem
      (commitMarkReminderSent c1St c1Rem) 9 4 9 3000 11
      (by simp [RemindersUnique, c1St])).2 (by decide)

/-- C2: whenever any step of the chaining transaction fails, the persistent
state is exactly the pre-transaction state — all sub-writes are rolled
back — so a pending reminder row is still pending, the show table (and with
it the last-watched position) is unchanged, and the next poll at any time
selects the same due reminders as before. -/
theorem markReminderSent_error_rolls_back (st : DBState) (rem : DBReminder)
    (e : String) (now : Nat)
    (herr : markReminderSent st rem = Except.error e) :
    commitMarkReminderSent st rem = st ∧
    (rem ∈ st.reminders → rem ∈ (commitMarkReminderSent st rem).reminders) ∧
    (commitMarkReminderSent st rem).shows = st.shows ∧
    getDueReminders (commitMarkReminderSent st rem) now =
      getDueReminders st now := by
  have h : commitMarkReminderSent st rem = st := by
    rw [commitMarkReminderSent, herr]
  exact ⟨h, fun hm => by rw [h]; exact hm, by rw [h], by rw [h]⟩

def c2Rem : DBReminder := ⟨1, 7, 1, 99, 100, 5⟩

def c2St : DBState := ⟨[c3Show], sampleEpisodes, [c2Rem], 2, 2⟩

/-- C2 witness: a reminder whose target episode (id 99) is missing from the
cache makes the transaction fail; the state is unchanged, the reminder is
still pending, and the next poll sees the same due set. -/
theorem markReminderSent_error_rolls_back_witness :
    commitMarkReminderSent c2St c2Rem = c2St ∧
    c2Rem ∈ (commitMarkReminderSent c2St c2Rem).reminders ∧
    getDueReminders (commitMarkReminderSent c2St c2Rem) 400 =
      getDueReminders c2St 400 := by
  have h := markReminderSent_error_rolls_back c2St c2Rem
    "episode row for the sent reminder not found" 400 rfl
  exact ⟨h.1, h.2.1 (by decide), h.2.2.2⟩

/-- C10: when the subscription's `notifications_enabled` flag is off at
commit time (and the sent episode and show row exist, so the transaction
reaches its end), the chaining transaction still commits — but as the
delete-and-advance only: the processed reminder row is gone, the show's
last-watched episode is the delivered one, and no new reminder is inserted,
even when a next episode with a known air time exists. -/
theorem markReminderSent_disabled_skips_rearm (st : DBState)
    (rem : DBReminder) (cur : DBEpisode) (s : DBShow)
    (hcur : findEpisodeByID st.episodes rem.episodeID = some cur)
    (hshow : findShowByID st.shows rem.showID = some s)
    (hdis : s.notificationsEnabled = false) :
    markReminderSent st rem = Except.ok (chainAdvance st rem) ∧
    (commitMarkReminderSent st rem).reminders =
      st.reminders.filter (fun r => !(r.id == rem.id)) ∧
    lastWatchedIs (commitMarkReminderSent st rem) rem.showID rem.episodeID
      = true := by
  have hepi : findEpisodeByID (chainAdvance st rem).episodes rem.episodeID =
      some cur := hcur
  have hs2 : findShowByID (chainAdvance st rem).shows rem.showID =
      some { s with lastWatchedEpisodeID := some rem.episodeID } := by
    show findShowByID
      (updateLastWatchedEpisode (chainDelete st rem) rem.showID
        rem.episodeID).shows rem.showID = _
    rw [findShowByID_updateLastWatched]
    show (findShowByID st.shows rem.showID).map _ = _
    rw [hshow]
    rfl
  have hmain : markReminderSent st rem = Except.ok (chainAdvance st rem) := by
    cases hq : chainNextEpisode (chainAdvance st rem) rem cur with
    | none => simp only [markReminderSent, hepi, hq]
    | some next =>
      simp only [markReminderSent, hepi, hq, hs2]
      rw [if_neg]
      intro hc
      have h3 : s.notificationsEnabled = true := hc.2
      rw [hdis] at h3
      exact Bool.noConfusion h3
  have hcommit : commitMarkReminderSent st rem = chainAdvance st rem := by
    rw [commitMarkReminderSent, hmain]
  refine ⟨hmain, ?_, ?_⟩
  · rw [hcommit, chainAdvance_reminders]
  · rw [hcommit]
    show lastWatchedIs
      (updateLastWatchedEpisode (chainDelete st rem) rem.showID
        rem.episodeID) rem.showID rem.episodeID = true
    apply lastWatchedIs_updateLastWatched
    show (findShowByID st.shows rem.showID).isSome = true
    rw [hshow]
    rfl

def c10Show : DBShow :=
  ⟨3, 8, "Baz", "tvmaze", "show3", "UTC", none, false, 0⟩

def epS3a : DBEpisode :=
  ⟨6, "tvmaze", "show3", "e31", 1, 1, "g", "", "", 500, 0⟩

def epS3b : DBEpisode :=
  ⟨7, "tvmaze", "show3", "e32", 1, 2, "h", "", "", 3000, 0⟩

def c10Rem : DBReminder := ⟨1, 8, 3, 6, 500, 9⟩

def c10St : DBState := ⟨[c10Show], [epS3a, epS3b], [c10Rem], 4, 2⟩

/-- C10 witness: show 3 has notifications disabled while the next episode
(1,2) has a known air time 3000; the chain still commits the delete and the
advance to episode 6, and the reminder table ends empty. -/
theorem markReminderSent_disabled_skips_rearm_witness :
    markReminderSent c10St c10Rem = Except.ok (chainAdvance c10St c10Rem) ∧
    (commitMarkReminderSent c10St c10Rem).reminders = [] ∧
    lastWatchedIs (commitMarkReminderSent c10St c10Rem) 3 6 = true := by
  have h := markReminderSent_disabled_skips_rearm c10St c10Rem epS3a c10Show
    (by decide) (by decide) (by decide)
  exact ⟨h.1, h.2.1, h.2.2⟩

end TVReminder
